import Mathlib

/-!
Shallow embedding of `src/kash/kits/media/libs/wiki/wiki_search.py`:
the Wikipedia candidate-resolution and disambiguation scoring logic
(`assemble_search_results`, `calculate_notability_score`,
`wiki_title_score`, `wiki_is_disambiguation_page`, `wiki_is_list_page`,
`WikiPageResult`, `WikiSearchResults`).

Modelling conventions:
- Python floats are modelled as real numbers (`ℝ`).
- `wikipediaapi.WikipediaPage` is an external library object; the code
  reads only `title`, `exists()`, `namespace`, `len(backlinks)`,
  `len(langlinks)` and `length`, so it is embedded as a record of those
  observations.  `namespace` is an `IntEnum` in `wikipediaapi`
  (`Namespace.MAIN = 0`), so it is modelled as an integer; the counts are
  lengths of Python collections, hence naturals; `page.length` may be
  `None`, hence `Option Nat` (the code reads `page.length or 0`).
- `fuzz.ratio` and `fuzz.partial` + `_ratio` from the external `thefuzz`
  library are taken as parameters `ratio subRatio : String → String → ℝ`;
  claims about `wiki_title_score` assume the library's documented
  contract (percentages in [0,100], 100 on equal strings) as hypotheses.
- Python's `in` on strings (contiguous substring test) is `strContains`.
- `sorted(results, key=lambda x: x.title_score, reverse=True)` is a
  stable descending sort by `title_score`: `List.mergeSort` with the
  relation `b.title_score ≤ a.title_score` (mergeSort is stable and with
  this total relation sorts descending, ties keeping input order, exactly
  as CPython's stable `sorted` with `reverse=True`).
-/

/-- Python `s.lower()`, modelled characterwise on the underlying
character list (`String.toLower` is extensionally the same but its
iterator-based implementation does not reduce in the kernel). -/
def strToLower (s : String) : String := ⟨s.data.map Char.toLower⟩

/-- Python `needle in hay` for strings: `needle` occurs as a contiguous
substring of `hay`. -/
def strContains (needle hay : String) : Bool :=
  hay.data.tails.any fun t => needle.data.isPrefixOf t

/-- Value `wikipediaapi.Namespace.MAIN` (the `IntEnum` value 0). -/
def Namespace.MAIN : Int := 0

/-- The observations of a `wikipediaapi.WikipediaPage` that
`wiki_search.py` reads. -/
structure WikipediaPage where
  title : String
  exists' : Bool
  ns : Int
  backlinks : Nat
  langlinks : Nat
  length : Option Nat
deriving DecidableEq, Inhabited, Repr

/-- Source `wiki_is_disambiguation_page`: `"disambiguation" in page.title.lower()`. -/
def wiki_is_disambiguation_page (page : WikipediaPage) : Bool :=
  strContains "disambiguation" (strToLower page.title)

/-- Source `wiki_is_list_page`: `"list of" in page.title.lower()`. -/
def wiki_is_list_page (page : WikipediaPage) : Bool :=
  strContains "list of" (strToLower page.title)

/-- Source `calculate_notability_score`: 0.0 for non-existent or
non-main-namespace pages, otherwise
`log1p(num_backlinks)*0.5 + log1p(num_langlinks)*0.4 + log1p(page_length)*0.1`
with `page_length = page.length or 0`. -/
noncomputable def calculate_notability_score (page : WikipediaPage) : ℝ :=
  if page.exists' = false ∨ page.ns ≠ Namespace.MAIN then 0.0
  else
    Real.log (1 + (page.backlinks : ℝ)) * 0.5
      + Real.log (1 + (page.langlinks : ℝ)) * 0.4
      + Real.log (1 + ((page.length.getD 0 : Nat) : ℝ)) * 0.1

/-- Source `wiki_title_score`: `0.5 * fuzz.ratio(s1, s2) + 0.5 * fuzz.partial`
`_ratio(s1, s2)` on the lowercased concept and title; the two fuzzy
measures from the external `thefuzz` library are the parameters
`ratio` and `subRatio`. -/
noncomputable def wiki_title_score (ratio subRatio : String → String → ℝ)
    (concept : String) (page : WikipediaPage) : ℝ :=
  0.5 * ratio (strToLower concept) (strToLower page.title)
    + 0.5 * subRatio (strToLower concept) (strToLower page.title)

/-- Record `WikiPageResult` (frozen dataclass): a page plus its title score.
Dataclass equality compares the `page` and `title_score` fields; the
cached properties are modelled as the functions below. -/
structure WikiPageResult where
  page : WikipediaPage
  title_score : ℝ

/-- Cached property `WikiPageResult.notability_score`. -/
noncomputable def WikiPageResult.notability_score (r : WikiPageResult) : ℝ :=
  calculate_notability_score r.page

/-- Cached property `WikiPageResult.total_score`:
`title_score * notability_score / 100.0`. -/
noncomputable def WikiPageResult.total_score (r : WikiPageResult) : ℝ :=
  r.title_score * r.notability_score / 100.0

instance : Inhabited WikiPageResult := ⟨⟨default, 0⟩⟩

/-- Frozen-dataclass equality on `WikiPageResult` compares the `page` and
`title_score` fields; this is the `!=` used at line 95 of the source
(`sorted_results[0] != results[0]`). -/
noncomputable instance : DecidableEq WikiPageResult := fun a b =>
  decidable_of_iff (a.page = b.page ∧ a.title_score = b.title_score)
    (by cases a; cases b; simp [WikiPageResult.mk.injEq])

/-- Record `WikiSearchResults` (frozen dataclass), field names as in the source
(including the `has_unambigous_match` spelling). -/
structure WikiSearchResults where
  has_unambigous_match : Bool
  disambiguation_page : Option WikipediaPage
  page_results : List WikiPageResult

/-- Method `WikiSearchResults.__bool__`: `bool(self.page_results)` — a Python
list is truthy iff non-empty. -/
def WikiSearchResults.toBool (r : WikiSearchResults) : Bool :=
  !r.page_results.isEmpty

/-- The `for page in pages:` loop of `assemble_search_results`, with the
accumulated `disambiguation_page` and `results` made explicit.  Branches
in source order: disambiguation pages are remembered (first one only) and
skipped; list pages are skipped; pages below `min_notability_score` are
skipped; the rest are appended as `WikiPageResult`s. -/
noncomputable def assemble_loop (ratio subRatio : String → String → ℝ)
    (concept : String) (min_notability_score : ℝ)
    (disambiguation_page : Option WikipediaPage)
    (results : List WikiPageResult) :
    List WikipediaPage → Option WikipediaPage × List WikiPageResult
  | [] => (disambiguation_page, results)
  | page :: pages =>
    if wiki_is_disambiguation_page page then
      assemble_loop ratio subRatio concept min_notability_score
        (if disambiguation_page = none then some page else disambiguation_page)
        results pages
    else if wiki_is_list_page page then
      assemble_loop ratio subRatio concept min_notability_score
        disambiguation_page results pages
    else if calculate_notability_score page < min_notability_score then
      assemble_loop ratio subRatio concept min_notability_score
        disambiguation_page results pages
    else
      assemble_loop ratio subRatio concept min_notability_score
        disambiguation_page
        (results ++ [⟨page, wiki_title_score ratio subRatio concept page⟩])
        pages

/-- The `is_unambiguous` decision of `assemble_search_results`
(lines 86–109 of the source), on the loop's accumulated
`disambiguation_page` and `results`.  Python truthiness of
`disambiguation_page` (an object-or-`None`) is `Option.isSome`. -/
noncomputable def unambiguous_decision (disambiguation_page : Option WikipediaPage)
    (results : List WikiPageResult)
    (unambiguous_threshold : ℝ) (unambiguous_cutoff : ℝ) : Bool :=
  if disambiguation_page.isSome then false
  else if results.length = 0 then false
  else if results.length = 1 then true
  else
    let sorted_results :=
      results.mergeSort fun a b => decide (b.title_score ≤ a.title_score)
    if sorted_results.headI ≠ results.headI then false
    else
      let max_score := sorted_results.headI.total_score
      let second_score := (sorted_results.getD 1 default).total_score
      decide (max_score > unambiguous_threshold
        ∧ max_score - second_score > unambiguous_cutoff)

/-- Source `assemble_search_results(concept, pages, min_notability_score,
min_title_score, unambiguous_threshold, unambiguous_cutoff)`.  The source
defaults are 4.0, 2.0, 6.0, 2; here all parameters are explicit.
`min_title_score` is accepted and unused, as in the source. -/
noncomputable def assemble_search_results (ratio subRatio : String → String → ℝ)
    (concept : String) (pages : List WikipediaPage)
    (min_notability_score : ℝ) (min_title_score : ℝ)
    (unambiguous_threshold : ℝ) (unambiguous_cutoff : ℝ) : WikiSearchResults :=
  let st := assemble_loop ratio subRatio concept min_notability_score none [] pages
  { has_unambigous_match :=
      unambiguous_decision st.1 st.2 unambiguous_threshold unambiguous_cutoff
    disambiguation_page := st.1
    page_results := st.2 }

/-- The survival predicate applied by the candidate loop: not a
disambiguation page, not a list page, and notability at least
`min_notability_score` (conjunction of the negated `continue` guards of
lines 76–83 of the source). -/
noncomputable def survives (min_notability_score : ℝ) (page : WikipediaPage) : Bool :=
  !wiki_is_disambiguation_page page && !wiki_is_list_page page
    && !decide (calculate_notability_score page < min_notability_score)

/-- A generic existing main-namespace page used in concrete witnesses. -/
def pageAlpha : WikipediaPage :=
  { title := "Alpha", exists' := true, ns := 0
    backlinks := 0, langlinks := 0, length := some 0 }

/-- A second existing main-namespace page used in concrete witnesses. -/
def pageGamma : WikipediaPage :=
  { title := "Gamma", exists' := true, ns := 0
    backlinks := 0, langlinks := 0, length := some 0 }

/-- A disambiguation page used in concrete witnesses. -/
def pageDis : WikipediaPage :=
  { title := "Beta (disambiguation)", exists' := true, ns := 0
    backlinks := 0, langlinks := 0, length := some 0 }

/-- A non-existent page used in concrete witnesses. -/
def pageGone : WikipediaPage :=
  { title := "Nonexistent", exists' := false, ns := 0
    backlinks := 1, langlinks := 1, length := some 1 }

/-- An existing main-namespace page with non-trivial counts, used in
concrete witnesses. -/
def pageMain : WikipediaPage :=
  { title := "Notable", exists' := true, ns := 0
    backlinks := 10, langlinks := 5, length := some 500 }

/-- A page whose namespace value 999 is not any `wikipediaapi.Namespace`
member, used for the invalid-data analysis. -/
def badNs : WikipediaPage :=
  { title := "Badpage", exists' := true, ns := 999
    backlinks := 3, langlinks := 3, length := some 3 }

/-- A concrete similarity measure satisfying the `thefuzz` contract
(values in [0,100], 100 on equal strings), used to instantiate the
`ratio`/`subRatio` parameters in witnesses. -/
noncomputable def eqRatio (s t : String) : ℝ := if s = t then 100 else 0

/-- The constant-zero similarity measure, used to instantiate the
`ratio`/`subRatio` parameters in witnesses. -/
def zeroRatio (_ _ : String) : ℝ := 0

/-! ### Infrastructure lemmas -/

/-- The notability score is never negative: it is either the 0.0 of the
early return or a weighted sum of logarithms of reals that are at
least 1. -/
theorem notability_nonneg (page : WikipediaPage) :
    0 ≤ calculate_notability_score page := by
  unfold calculate_notability_score
  split
  · norm_num
  · have h1 : 0 ≤ Real.log (1 + (page.backlinks : ℝ)) :=
      Real.log_nonneg (le_add_of_nonneg_right (Nat.cast_nonneg _))
    have h2 : 0 ≤ Real.log (1 + (page.langlinks : ℝ)) :=
      Real.log_nonneg (le_add_of_nonneg_right (Nat.cast_nonneg _))
    have h3 : 0 ≤ Real.log (1 + ((page.length.getD 0 : ℕ) : ℝ)) :=
      Real.log_nonneg (le_add_of_nonneg_right (Nat.cast_nonneg _))
    nlinarith

/-- The early return of `calculate_notability_score`. -/
theorem notability_of_invalid (page : WikipediaPage)
    (h : page.exists' = false ∨ page.ns ≠ Namespace.MAIN) :
    calculate_notability_score page = 0 := by
  unfold calculate_notability_score
  rw [if_pos h]
  norm_num

/-- The formula branch of `calculate_notability_score`. -/
theorem notability_of_valid (page : WikipediaPage)
    (h1 : page.exists' = true) (h2 : page.ns = Namespace.MAIN) :
    calculate_notability_score page =
      Real.log (1 + (page.backlinks : ℝ)) * 0.5
        + Real.log (1 + (page.langlinks : ℝ)) * 0.4
        + Real.log (1 + ((page.length.getD 0 : ℕ) : ℝ)) * 0.1 := by
  unfold calculate_notability_score
  rw [if_neg]
  push_neg
  exact ⟨by simp [h1], h2⟩

/-- Unfolding of the loop's survival predicate. -/
theorem survives_iff (mn : ℝ) (page : WikipediaPage) :
    survives mn page = true ↔
      (wiki_is_disambiguation_page page = false
        ∧ wiki_is_list_page page = false
        ∧ mn ≤ calculate_notability_score page) := by
  simp [survives, not_lt, and_assoc]

/-- The `results` accumulated by the candidate loop are the filter-order
survivors, each paired with its title score. -/
theorem assemble_loop_snd (ratio subRatio : String → String → ℝ)
    (concept : String) (mn : ℝ) (pages : List WikipediaPage) :
    ∀ (d : Option WikipediaPage) (acc : List WikiPageResult),
      (assemble_loop ratio subRatio concept mn d acc pages).2 =
        acc ++ (pages.filter (survives mn)).map
          (fun p => ⟨p, wiki_title_score ratio subRatio concept p⟩) := by
  induction pages with
  | nil => intro d acc; simp [assemble_loop]
  | cons p ps ih =>
    intro d acc
    by_cases h1 : wiki_is_disambiguation_page p
    · simp [assemble_loop, h1, ih, survives]
    · by_cases h2 : wiki_is_list_page p
      · simp [assemble_loop, h1, h2, ih, survives]
      · by_cases h3 : calculate_notability_score p < mn
        · simp [assemble_loop, h1, h2, h3, ih, survives]
        · simp [assemble_loop, h1, h2, h3, ih, survives]

/-- The `disambiguation_page` accumulated by the candidate loop is the
first disambiguation-flagged page, i.e. `List.find?`. -/
theorem assemble_loop_fst (ratio subRatio : String → String → ℝ)
    (concept : String) (mn : ℝ) (pages : List WikipediaPage) :
    ∀ (d : Option WikipediaPage) (acc : List WikiPageResult),
      (assemble_loop ratio subRatio concept mn d acc pages).1 =
        (d <|> pages.find? wiki_is_disambiguation_page) := by
  induction pages with
  | nil => intro d acc; cases d <;> simp [assemble_loop]
  | cons p ps ih =>
    intro d acc
    by_cases h1 : wiki_is_disambiguation_page p
    · cases d <;>
        simp [assemble_loop, h1, ih, List.find?_cons_of_pos _ h1]
    · by_cases h2 : wiki_is_list_page p
      · simp [assemble_loop, h1, h2, ih, List.find?_cons_of_neg _ h1]
      · by_cases h3 : calculate_notability_score p < mn
        · simp [assemble_loop, h1, h2, h3, ih,
            List.find?_cons_of_neg _ h1]
        · simp [assemble_loop, h1, h2, h3, ih,
            List.find?_cons_of_neg _ h1]

/-- Closed form of `assemble_search_results` in terms of `List.find?`,
`List.filter` and the decision function. -/
theorem assemble_search_results_def (ratio subRatio : String → String → ℝ)
    (concept : String) (pages : List WikipediaPage) (mn mt th cut : ℝ) :
    assemble_search_results ratio subRatio concept pages mn mt th cut =
      { has_unambigous_match :=
          unambiguous_decision (pages.find? wiki_is_disambiguation_page)
            ((pages.filter (survives mn)).map
              fun p => ⟨p, wiki_title_score ratio subRatio concept p⟩)
            th cut
        disambiguation_page := pages.find? wiki_is_disambiguation_page
        page_results := (pages.filter (survives mn)).map
          fun p => ⟨p, wiki_title_score ratio subRatio concept p⟩ } := by
  simp only [assemble_search_results, assemble_loop_fst, assemble_loop_snd,
    Option.none_orElse, List.nil_append]

/-- Helper: `List.find?` finds the first match: the list splits into a prefix of
non-matches, the found element, and a tail. -/
theorem find?_first {α : Type} (p : α → Bool) :
    ∀ (l : List α) (a : α), l.find? p = some a →
      ∃ l1 l2, l = l1 ++ a :: l2 ∧ (∀ x ∈ l1, p x = false) ∧ p a = true := by
  intro l
  induction l with
  | nil => intro a h; simp [List.find?] at h
  | cons x xs ih =>
    intro a h
    by_cases hx : p x
    · rw [List.find?_cons_of_pos _ hx] at h
      cases h
      exact ⟨[], xs, rfl, by simp, hx⟩
    · rw [List.find?_cons_of_neg _ hx] at h
      obtain ⟨l1, l2, rfl, hall, hpa⟩ := ih a h
      refine ⟨x :: l1, l2, rfl, ?_, hpa⟩
      intro y hy
      rcases List.mem_cons.mp hy with rfl | hy
      · simpa using hx
      · exact hall y hy

/-! ### Claims -/

/-- Claim C4: for every pair of values of the `min_title_score`
parameter, and for every query and candidate list, resolve returns the
identical `WikiSearchResults`: the parameter is accepted but never
influences filtering, scoring, or the unambiguity decision. -/
theorem assemble_min_title_score_noninterference
    (ratio subRatio : String → String → ℝ) (concept : String)
    (pages : List WikipediaPage) (mn mt₁ mt₂ th cut : ℝ) :
    assemble_search_results ratio subRatio concept pages mn mt₁ th cut =
      assemble_search_results ratio subRatio concept pages mn mt₂ th cut := rfl

/-- Claim C10: converting a `WikiSearchResults` to a boolean yields
`true` iff `page_results` is non-empty; resolving an empty candidate
list produces a falsy yet normally constructed result. -/
theorem wikiSearchResults_bool_spec :
    (∀ r : WikiSearchResults, (r.toBool = true ↔ r.page_results ≠ []))
    ∧ ∀ (ratio subRatio : String → String → ℝ) (concept : String)
        (mn mt th cut : ℝ),
        assemble_search_results ratio subRatio concept [] mn mt th cut =
          ⟨false, none, []⟩
        ∧ (assemble_search_results ratio subRatio concept [] mn mt th cut).toBool
            = false := by
  constructor
  · intro r
    simp [WikiSearchResults.toBool, List.isEmpty_iff]
  · intro ratio subRatio concept mn mt th cut
    have h : assemble_search_results ratio subRatio concept [] mn mt th cut =
        ⟨false, none, []⟩ := by
      rw [assemble_search_results_def]
      simp [unambiguous_decision]
    exact ⟨h, by rw [h]; rfl⟩

/-- Claim C10 witness: concrete evaluations of the boolean conversion. -/
theorem wikiSearchResults_bool_spec_witness :
    ((WikiSearchResults.mk true none [⟨pageAlpha, 0⟩]).toBool = true ↔
      [(⟨pageAlpha, 0⟩ : WikiPageResult)] ≠ [])
    ∧ assemble_search_results zeroRatio zeroRatio "q" [] 4 2 6 2 =
        ⟨false, none, []⟩ :=
  ⟨wikiSearchResults_bool_spec.1 _,
   (wikiSearchResults_bool_spec.2 zeroRatio zeroRatio "q" 4 2 6 2).1⟩

/-- Claim C2: `calculate_notability_score` returns exactly 0.0 when the
candidate's namespace is not MAIN or the candidate does not exist, and
otherwise returns
`0.5 * ln(1 + backlink_count) + 0.4 * ln(1 + interlanguage_link_count)
+ 0.1 * ln(1 + content_length)` (with `content_length` read as
`page.length or 0`). -/
theorem calculate_notability_score_spec (page : WikipediaPage) :
    ((page.exists' = false ∨ page.ns ≠ Namespace.MAIN) →
        calculate_notability_score page = 0)
    ∧ (page.exists' = true → page.ns = Namespace.MAIN →
        calculate_notability_score page =
          0.5 * Real.log (1 + (page.backlinks : ℝ))
            + 0.4 * Real.log (1 + (page.langlinks : ℝ))
            + 0.1 * Real.log (1 + ((page.length.getD 0 : ℕ) : ℝ))) := by
  refine ⟨fun h => notability_of_invalid page h, fun h1 h2 => ?_⟩
  rw [notability_of_valid page h1 h2]
  ring

/-- Claim C2 witness: the zero case at a non-existent page and the
formula case at an existing main-namespace page. -/
theorem calculate_notability_score_spec_witness :
    calculate_notability_score pageGone = 0
    ∧ calculate_notability_score pageMain =
        0.5 * Real.log (1 + (pageMain.backlinks : ℝ))
          + 0.4 * Real.log (1 + (pageMain.langlinks : ℝ))
          + 0.1 * Real.log (1 + ((pageMain.length.getD 0 : ℕ) : ℝ)) :=
  ⟨(calculate_notability_score_spec pageGone).1 (Or.inl rfl),
   (calculate_notability_score_spec pageMain).2 rfl rfl⟩

/-- Claim C8: for every existing MAIN-namespace candidate, increasing
exactly one of `backlinks`, `langlinks`, or the content length while
holding the others fixed never decreases the notability score. -/
theorem calculate_notability_score_monotone (page : WikipediaPage)
    (b l n : ℕ) (hex : page.exists' = true) (hns : page.ns = Namespace.MAIN) :
    (page.backlinks ≤ b →
        calculate_notability_score page ≤
          calculate_notability_score { page with backlinks := b })
    ∧ (page.langlinks ≤ l →
        calculate_notability_score page ≤
          calculate_notability_score { page with langlinks := l })
    ∧ (page.length.getD 0 ≤ n →
        calculate_notability_score page ≤
          calculate_notability_score { page with length := some n }) := by
  have key : ∀ (x y : ℕ), x ≤ y →
      Real.log (1 + (x : ℝ)) ≤ Real.log (1 + (y : ℝ)) := by
    intro x y h
    exact Real.log_le_log (by positivity)
      (add_le_add_left (by exact_mod_cast h) 1)
  refine ⟨fun hb => ?_, fun hl => ?_, fun hn => ?_⟩
  · rw [notability_of_valid page hex hns,
      notability_of_valid { page with backlinks := b } hex hns]
    have := key page.backlinks b hb
    dsimp only
    linarith
  · rw [notability_of_valid page hex hns,
      notability_of_valid { page with langlinks := l } hex hns]
    have := key page.langlinks l hl
    dsimp only
    linarith
  · rw [notability_of_valid page hex hns,
      notability_of_valid { page with length := some n } hex hns]
    have := key (page.length.getD 0) n hn
    simp only [Option.getD_some]
    linarith

/-- Claim C8 witness: monotonicity at a concrete page and concrete
increased counts. -/
theorem calculate_notability_score_monotone_witness :
    (calculate_notability_score pageMain ≤
        calculate_notability_score { pageMain with backlinks := 25 })
    ∧ (calculate_notability_score pageMain ≤
        calculate_notability_score { pageMain with langlinks := 9 })
    ∧ (calculate_notability_score pageMain ≤
        calculate_notability_score { pageMain with length := some 1000 }) :=
  ⟨(calculate_notability_score_monotone pageMain 25 9 1000 rfl rfl).1
      (by decide),
   (calculate_notability_score_monotone pageMain 25 9 1000 rfl rfl).2.1
      (by decide),
   (calculate_notability_score_monotone pageMain 25 9 1000 rfl rfl).2.2
      (by decide)⟩

/-- Claim C7: under the `thefuzz` contract for the two similarity
measures (each in [0,100], each 100 on equal strings),
`wiki_title_score` is their arithmetic mean on the lowercased strings,
lies in [0,100], and is exactly 100 when query and title are equal up to
case. -/
theorem wiki_title_score_spec (ratio subRatio : String → String → ℝ)
    (hr : ∀ s t, 0 ≤ ratio s t ∧ ratio s t ≤ 100)
    (hs : ∀ s t, 0 ≤ subRatio s t ∧ subRatio s t ≤ 100)
    (hr100 : ∀ s, ratio s s = 100) (hs100 : ∀ s, subRatio s s = 100)
    (concept : String) (page : WikipediaPage) :
    wiki_title_score ratio subRatio concept page =
      (ratio (strToLower concept) (strToLower page.title)
        + subRatio (strToLower concept) (strToLower page.title)) / 2
    ∧ 0 ≤ wiki_title_score ratio subRatio concept page
    ∧ wiki_title_score ratio subRatio concept page ≤ 100
    ∧ (strToLower concept = strToLower page.title →
        wiki_title_score ratio subRatio concept page = 100) := by
  obtain ⟨hr0, hr1⟩ := hr (strToLower concept) (strToLower page.title)
  obtain ⟨hs0, hs1⟩ := hs (strToLower concept) (strToLower page.title)
  unfold wiki_title_score
  refine ⟨by ring, by linarith, by linarith, fun heq => ?_⟩
  rw [heq, hr100, hs100]
  norm_num

/-- Claim C7 witness: bounds and the exact-match case at a concrete
query and page, with a concrete contract-satisfying measure. -/
theorem wiki_title_score_spec_witness :
    0 ≤ wiki_title_score eqRatio eqRatio "ALPHA" pageAlpha
    ∧ wiki_title_score eqRatio eqRatio "ALPHA" pageAlpha ≤ 100
    ∧ wiki_title_score eqRatio eqRatio "ALPHA" pageAlpha = 100 :=
  ⟨(wiki_title_score_spec eqRatio eqRatio
      (fun s t => by unfold eqRatio; split <;> norm_num)
      (fun s t => by unfold eqRatio; split <;> norm_num)
      (fun s => by simp [eqRatio]) (fun s => by simp [eqRatio])
      "ALPHA" pageAlpha).2.1,
   (wiki_title_score_spec eqRatio eqRatio
      (fun s t => by unfold eqRatio; split <;> norm_num)
      (fun s t => by unfold eqRatio; split <;> norm_num)
      (fun s => by simp [eqRatio]) (fun s => by simp [eqRatio])
      "ALPHA" pageAlpha).2.2.1,
   (wiki_title_score_spec eqRatio eqRatio
      (fun s t => by unfold eqRatio; split <;> norm_num)
      (fun s t => by unfold eqRatio; split <;> norm_num)
      (fun s => by simp [eqRatio]) (fun s => by simp [eqRatio])
      "ALPHA" pageAlpha).2.2.2 (by decide)⟩

/-- Claim C6: every returned `page_results` entry wraps an input
candidate that is neither a disambiguation page nor a list page and has
notability at least `min_notability_score`, and the entries appear in
input (filter) order — their pages form a sublist of the input. -/
theorem assemble_page_results_filter_order
    (ratio subRatio : String → String → ℝ) (concept : String)
    (pages : List WikipediaPage) (mn mt th cut : ℝ) :
    (∀ r ∈ (assemble_search_results ratio subRatio concept pages
        mn mt th cut).page_results,
        r.page ∈ pages
        ∧ wiki_is_disambiguation_page r.page = false
        ∧ wiki_is_list_page r.page = false
        ∧ mn ≤ calculate_notability_score r.page)
    ∧ ((assemble_search_results ratio subRatio concept pages
        mn mt th cut).page_results.map WikiPageResult.page).Sublist pages := by
  rw [assemble_search_results_def]
  dsimp only
  constructor
  · intro r hr
    simp only [List.mem_map] at hr
    obtain ⟨p, hp, rfl⟩ := hr
    rw [List.mem_filter] at hp
    obtain ⟨hmem, hsv⟩ := hp
    obtain ⟨h1, h2, h3⟩ := (survives_iff mn p).mp hsv
    exact ⟨hmem, h1, h2, h3⟩
  · simp only [List.map_map]
    have hid : (WikiPageResult.page ∘ fun p =>
        (⟨p, wiki_title_score ratio subRatio concept p⟩ : WikiPageResult)) =
        id := rfl
    rw [hid, List.map_id]
    exact List.filter_sublist _

/-- Claim C6 witness: the returned pages form a sublist of a concrete
input list. -/
theorem assemble_page_results_filter_order_witness :
    ((assemble_search_results zeroRatio zeroRatio "q" [pageAlpha]
      (-1) 2 6 2).page_results.map WikiPageResult.page).Sublist [pageAlpha] :=
  (assemble_page_results_filter_order zeroRatio zeroRatio "q" [pageAlpha]
    (-1) 2 6 2).2

/-- Claim C3: if some candidate is a disambiguation page (title contains
"disambiguation" case-insensitively), resolve returns
`has_unambigous_match = false` and `disambiguation_page` is the first
such candidate in input order. -/
theorem assemble_disambiguation_short_circuit
    (ratio subRatio : String → String → ℝ) (concept : String)
    (pages : List WikipediaPage) (mn mt th cut : ℝ)
    (h : ∃ p ∈ pages, wiki_is_disambiguation_page p = true) :
    (assemble_search_results ratio subRatio concept pages
        mn mt th cut).has_unambigous_match = false
    ∧ ∃ d l1 l2,
        (assemble_search_results ratio subRatio concept pages
          mn mt th cut).disambiguation_page = some d
        ∧ pages = l1 ++ d :: l2
        ∧ (∀ q ∈ l1, wiki_is_disambiguation_page q = false)
        ∧ wiki_is_disambiguation_page d = true := by
  have hsome : (pages.find? wiki_is_disambiguation_page).isSome = true :=
    List.find?_isSome.mpr h
  obtain ⟨d, hd⟩ := Option.isSome_iff_exists.mp hsome
  obtain ⟨l1, l2, heq, hall, hpd⟩ :=
    find?_first wiki_is_disambiguation_page pages d hd
  rw [assemble_search_results_def]
  refine ⟨?_, d, l1, l2, ?_, heq, hall, hpd⟩
  · dsimp only
    rw [hd]
    simp [unambiguous_decision]
  · dsimp only
    rw [hd]

/-- Claim C3 witness: a concrete list containing a disambiguation page
is resolved as ambiguous. -/
theorem assemble_disambiguation_short_circuit_witness :
    (assemble_search_results zeroRatio zeroRatio "beta"
      [pageAlpha, pageDis] 4 2 6 2).has_unambigous_match = false :=
  (assemble_disambiguation_short_circuit zeroRatio zeroRatio "beta"
    [pageAlpha, pageDis] 4 2 6 2 (by decide)).1

/-- Claim C5: with no disambiguation page encountered and exactly one
candidate surviving the filters, resolve reports an unambiguous match,
whatever the thresholds and the candidate's scores. -/
theorem assemble_single_survivor_unambiguous
    (ratio subRatio : String → String → ℝ) (concept : String)
    (pages : List WikipediaPage) (mn mt th cut : ℝ)
    (hnd : ∀ p ∈ pages, wiki_is_disambiguation_page p = false)
    (hone : (assemble_search_results ratio subRatio concept pages
        mn mt th cut).page_results.length = 1) :
    (assemble_search_results ratio subRatio concept pages
        mn mt th cut).has_unambigous_match = true := by
  have hfind : pages.find? wiki_is_disambiguation_page = none :=
    List.find?_eq_none.mpr (fun x hx => by simp [hnd x hx])
  rw [assemble_search_results_def] at hone ⊢
  dsimp only at hone ⊢
  rw [hfind]
  simp [unambiguous_decision, hone]

/-- Claim C5 witness: a single low-scoring survivor is unambiguous even
with a huge threshold. -/
theorem assemble_single_survivor_unambiguous_witness :
    (assemble_search_results zeroRatio zeroRatio "q" [pageAlpha]
      (-1) 2 1000000 1000000).has_unambigous_match = true :=
  assemble_single_survivor_unambiguous zeroRatio zeroRatio "q" [pageAlpha]
    (-1) 2 1000000 1000000 (by decide)
    (by
      have hsv : survives (-1) pageAlpha = true :=
        (survives_iff _ _).mpr ⟨by decide, by decide,
          le_trans (by norm_num) (notability_nonneg _)⟩
      rw [assemble_search_results_def]
      simp [List.filter_cons, hsv])

/-- Claim C1: with no disambiguation-flagged candidate and at least two
survivors, the match is unambiguous iff the first survivor is the top
entry of the stable descending sort by `title_score`, the top entry's
`total_score` exceeds `unambiguous_threshold`, and the gap between the
top two `total_score`s exceeds `unambiguous_cutoff`. -/
theorem assemble_unambiguous_iff
    (ratio subRatio : String → String → ℝ) (concept : String)
    (pages : List WikipediaPage) (mn mt th cut : ℝ)
    (hnd : ∀ p ∈ pages, wiki_is_disambiguation_page p = false)
    (hlen : 2 ≤ (assemble_search_results ratio subRatio concept pages
        mn mt th cut).page_results.length) :
    ∀ scored sorted_results : List WikiPageResult,
      scored = (assemble_search_results ratio subRatio concept pages
        mn mt th cut).page_results →
      sorted_results = scored.mergeSort
        (fun a b => decide (b.title_score ≤ a.title_score)) →
      ((assemble_search_results ratio subRatio concept pages
          mn mt th cut).has_unambigous_match = true ↔
        (sorted_results.headI = scored.headI
          ∧ sorted_results.headI.total_score > th
          ∧ sorted_results.headI.total_score -
              (sorted_results.getD 1 default).total_score > cut)) := by
  intro scored sorted_results hsc hso
  subst hso
  subst hsc
  have hfind : pages.find? wiki_is_disambiguation_page = none :=
    List.find?_eq_none.mpr (fun x hx => by simp [hnd x hx])
  rw [assemble_search_results_def] at hlen ⊢
  dsimp only at hlen ⊢
  rw [hfind]
  set R := (pages.filter (survives mn)).map
    (fun p => (⟨p, wiki_title_score ratio subRatio concept p⟩ :
      WikiPageResult)) with hR
  have h0 : ¬(R.length = 0) := by omega
  have h1 : ¬(R.length = 1) := by omega
  simp only [unambiguous_decision, Option.isSome_none, Bool.false_eq_true,
    if_false, if_neg h0, if_neg h1]
  by_cases hh : (R.mergeSort
      fun a b => decide (b.title_score ≤ a.title_score)).headI = R.headI
  · rw [if_neg (not_not_intro hh)]
    simp [decide_eq_true_eq, hh]
  · rw [if_pos hh]
    simp [hh]

/-- Claim C1 witness: the characterization at a concrete two-survivor
input. -/
theorem assemble_unambiguous_iff_witness :
    ((assemble_search_results zeroRatio zeroRatio "q"
        [pageAlpha, pageGamma] (-1) 2 6 2).has_unambigous_match = true ↔
      (((assemble_search_results zeroRatio zeroRatio "q"
          [pageAlpha, pageGamma] (-1) 2 6 2).page_results.mergeSort
          (fun a b => decide (b.title_score ≤ a.title_score))).headI =
        (assemble_search_results zeroRatio zeroRatio "q"
          [pageAlpha, pageGamma] (-1) 2 6 2).page_results.headI
      ∧ ((assemble_search_results zeroRatio zeroRatio "q"
          [pageAlpha, pageGamma] (-1) 2 6 2).page_results.mergeSort
          (fun a b => decide (b.title_score ≤ a.title_score))).headI.total_score
          > 6
      ∧ ((assemble_search_results zeroRatio zeroRatio "q"
          [pageAlpha, pageGamma] (-1) 2 6 2).page_results.mergeSort
          (fun a b => decide (b.title_score ≤ a.title_score))).headI.total_score
          - (((assemble_search_results zeroRatio zeroRatio "q"
              [pageAlpha, pageGamma] (-1) 2 6 2).page_results.mergeSort
              (fun a b => decide (b.title_score ≤ a.title_score))).getD 1
              default).total_score > 2)) :=
  assemble_unambiguous_iff zeroRatio zeroRatio "q" [pageAlpha, pageGamma]
    (-1) 2 6 2 (by decide)
    (by
      have s1 : survives (-1) pageAlpha = true :=
        (survives_iff _ _).mpr ⟨by decide, by decide,
          le_trans (by norm_num) (notability_nonneg _)⟩
      have s2 : survives (-1) pageGamma = true :=
        (survives_iff _ _).mpr ⟨by decide, by decide,
          le_trans (by norm_num) (notability_nonneg _)⟩
      rw [assemble_search_results_def]
      simp [List.filter_cons, s1, s2])
    _ _ rfl rfl

/-- Claim C9 counterexample: called on a candidate whose namespace value
999 is no known namespace, `assemble_search_results` does not fail with
any error — it returns the normal empty `WikiSearchResults`. -/
theorem assemble_invalid_data_counterexample :
    assemble_search_results zeroRatio zeroRatio "x" [badNs] 4 2 6 2 =
      ⟨false, none, []⟩ := by
  have h0 : calculate_notability_score badNs = 0 :=
    notability_of_invalid badNs (Or.inr (by decide))
  have hlt : (0 : ℝ) < 4 := by norm_num
  have hsv : survives 4 badNs = false := by
    simp [survives, h0, hlt]
  have hf : [badNs].find? wiki_is_disambiguation_page = none := by
    rw [List.find?_cons_of_neg _ (by decide)]
    rfl
  rw [assemble_search_results_def, hf]
  simp [List.filter_cons, hsv, unambiguous_decision]

/-- Claim C9 (amended): resolve performs no validation and has no
failure path: a candidate with an unknown namespace is processed
normally — `calculate_notability_score` returns 0.0 for it, and (when
the notability floor is positive and the candidate is not
disambiguation-flagged) resolve returns the normal empty
`WikiSearchResults` rather than an error. -/
theorem assemble_unknown_namespace_no_failure
    (ratio subRatio : String → String → ℝ) (concept : String)
    (page : WikipediaPage) (mn mt th cut : ℝ)
    (hns : page.ns ≠ Namespace.MAIN) :
    calculate_notability_score page = 0
    ∧ (wiki_is_disambiguation_page page = false → 0 < mn →
        assemble_search_results ratio subRatio concept [page] mn mt th cut =
          ⟨false, none, []⟩) := by
  have h0 := notability_of_invalid page (Or.inr hns)
  refine ⟨h0, fun hd hmn => ?_⟩
  have hsv : survives mn page = false := by
    simp [survives, h0, hmn]
  have hf : [page].find? wiki_is_disambiguation_page = none := by
    rw [List.find?_cons_of_neg _ (by simp [hd])]
    rfl
  rw [assemble_search_results_def, hf]
  simp [List.filter_cons, hsv, unambiguous_decision]

/-- Claim C9 (amended) witness: the no-failure behaviour at the concrete
unknown-namespace candidate. -/
theorem assemble_unknown_namespace_no_failure_witness :
    calculate_notability_score badNs = 0
    ∧ assemble_search_results zeroRatio zeroRatio "anything" [badNs] 4 2 6 2 =
        ⟨false, none, []⟩ :=
  ⟨(assemble_unknown_namespace_no_failure zeroRatio zeroRatio "anything"
      badNs 4 2 6 2 (by decide)).1,
   (assemble_unknown_namespace_no_failure zeroRatio zeroRatio "anything"
      badNs 4 2 6 2 (by decide)).2 (by decide) (by norm_num)⟩
